import Mathlib

/-!
Verification of the metadata-tagging script in scripts/add-metadata.py.

The script is embedded shallowly: the configuration dataclass becomes a
structure, the glob call and the interactive title prompt become explicit
function parameters, executed subprocess commands become values in a trace
of argument vectors, and Python exceptions and assertion failures become
error values of an Except type.
-/

namespace AddMetadata

/-- Mirrors the MediaConfig dataclass: the option surface of the script,
with the same defaults. -/
structure MediaConfig where
  dir : String
  img : String := ""
  artist : String := ""
  genre : String := ""
  track : String := ""
  album : String := ""
  title : String := ""
  filename : String := "*.mp3"
  askTitle : Bool := false
  replaceWhitespace : Bool := false
  cleanupFiles : Bool := false
deriving DecidableEq

/-- Character membership in a string; models the Python test of a
one-character pattern occurring in a string. -/
def containsChar (s : String) (c : Char) : Bool := s.data.contains c

/-- Models the wildcard test on the filename specifier. -/
def hasWildcard (s : String) : Bool := containsChar s '*'

/-- Models joining a directory Path with a file name, as done by the
Path division operator on a normalized directory. -/
def joinPath (dir filename : String) : String := dir ++ "/" ++ filename

/-- Splits a list of characters at every slash. -/
def splitChars : List Char → List (List Char)
  | [] => [[]]
  | c :: rest =>
    match splitChars rest, decide (c = '/') with
    | r, true => [] :: r
    | [], false => [[c]]
    | h :: t, false => (c :: h) :: t

/-- Path components of a path string, split at slashes. -/
def splitPath (p : String) : List String := (splitChars p.data).map String.mk

/-- Joins strings with slashes; used to rebuild the directory part. -/
def joinWithSlash : List String → String
  | [] => ""
  | [x] => x
  | x :: xs => x ++ "/" ++ joinWithSlash xs

/-- The part of the path before the last slash; models slicing the path
string at the result of rindex on the slash character. -/
def dirName (p : String) : String := joinWithSlash (splitPath p).dropLast

/-- The part of the path after the last slash; models the name attribute
of a Path object. -/
def baseName (p : String) : String := (splitPath p).getLastD ""

/-- The two failure modes of getFilePaths: the assertion on an empty file
list, and the IndexError from taking element zero of an empty image glob. -/
inductive DiscoveryError where
  | emptyFileList
  | imageIndexError
deriving DecidableEq

/-- Mirrors getFilePaths. The glob parameter stands for the filesystem:
it maps a directory and a pattern to the list of matching paths. A
specifier with a wildcard is expanded by glob, otherwise it is joined
literally with the directory; the assertion demands a non-empty file
list; a non-empty image specifier is expanded and its first match taken,
where an empty expansion raises IndexError. -/
def getFilePaths (glob : String → String → List String) (dir filename img : String) :
    Except DiscoveryError (List String × Option String) :=
  let files := if hasWildcard filename then glob dir filename else [joinPath dir filename]
  if files = [] then Except.error DiscoveryError.emptyFileList
  else if img = "" then Except.ok (files, none)
  else match glob dir img with
    | [] => Except.error DiscoveryError.imageIndexError
    | imageFile :: _ => Except.ok (files, some imageFile)

/-- Mirrors getRmCommand. -/
def getRmCommand (file : String) : List String := ["rm", file]

/-- Mirrors getMvCommand. -/
def getMvCommand (originalFilename newFilename : String) : List String :=
  ["mv", originalFilename, newFilename]

/-- Rewrites a space character to an underscore, as the first replace call
of trimStr does to each space. -/
def spaceToUnderscore (c : Char) : Char := if c = ' ' then '_' else c

/-- Keeps every character except the apostrophe (code 39), as the second
replace call of trimStr does. -/
def notApostrophe (c : Char) : Bool := !(c == Char.ofNat 39)

/-- Mirrors trimStr: replace each space with an underscore, then delete
each apostrophe. Both Python replace calls have one-character patterns,
so they act characterwise. -/
def trimStr (filename : String) : String :=
  String.mk ((filename.data.map spaceToUnderscore).filter notApostrophe)

/-- The title actually tagged: the interactive answer when askTitle is
set, the configured title otherwise. The promptedTitle parameter models
the value returned by the input call. -/
def resolveTitle (config : MediaConfig) (promptedTitle : String) : String :=
  if config.askTitle then promptedTitle else config.title

/-- Mirrors the metadataMap dict of getFfmpegCommand, in its insertion
order. -/
def metadataMap (title artist genre track album : String) : List (String × String) :=
  [("title", title), ("artist", artist), ("genre", genre), ("track", track), ("album", album)]

/-- Mirrors getFfmpegCommand: base invocation with the input file, the
optional second image input with its two stream maps, one metadata
argument pair per non-empty field of metadataMap in order, the fixed tag
version, and the stream-copy output. -/
def getFfmpegCommand (file : String) (config : MediaConfig) (imageFile : Option String)
    (outputFilename promptedTitle : String) : List String :=
  let title := resolveTitle config promptedTitle
  let command := ["ffmpeg", "-i", file]
  let command := match imageFile with
    | some img => command ++ ["-i", img, "-map", "0:0", "-map", "1:0"]
    | none => command
  let command := (metadataMap title config.artist config.genre config.track config.album).foldl
    (fun acc kv => if kv.2 = "" then acc else acc ++ ["-metadata", kv.1 ++ "=" ++ kv.2]) command
  let command := command ++ ["-id3v2_version", "3"]
  command ++ ["-c", "copy", outputFilename]

/-- Mirrors getOutputFilename. In normalize mode the copy marker is
inserted between the directory part and the bare name and the whole
string is trimmed; rindex raises ValueError when the path has no slash,
modelled by none. Otherwise the marker is prefixed to the bare name. -/
def getOutputFilename (config : MediaConfig) (file : String) : Option String :=
  if config.replaceWhitespace then
    if containsChar file '/' then
      some (trimStr (dirName file ++ "/copy_" ++ baseName file))
    else none
  else some ("copy_" ++ baseName file)

/-- Total projection of getOutputFilename, defaulting to the empty string;
used to state theorems under a success hypothesis. -/
def outputNameD (config : MediaConfig) (file : String) : String :=
  (getOutputFilename config file).getD ""

/-- Mirrors the two subprocess commands run by cleanupFiles: remove the
original, then rename the copy to the original name, trimmed when
requested. -/
def cleanupFilesCmds (file copyFilename : String) (trimFilename : Bool) : List (List String) :=
  [getRmCommand file, getMvCommand copyFilename (if trimFilename then trimStr file else file)]

/-- Mirrors the loop body of addMetadata over the remaining files. The
index argument numbers the files so that the prompts parameter can model
one interactive answer per iteration; the trace collects every argument
vector passed to subprocess.run, in order. A ValueError from
getOutputFilename aborts the run, modelled by none. -/
def addMetadataAux (config : MediaConfig) (imageFile : Option String)
    (prompts : Nat → String) : Nat → List String → Option (List (List String))
  | _, [] => some []
  | i, file :: rest =>
    match getOutputFilename config file with
    | none => none
    | some outputFilename =>
      match addMetadataAux config imageFile prompts (i + 1) rest with
      | none => none
      | some tr =>
        some ((getFfmpegCommand file config imageFile outputFilename (prompts i) ::
          (if config.cleanupFiles then cleanupFilesCmds file outputFilename config.replaceWhitespace
           else [])) ++ tr)

/-- Mirrors addMetadata, returning the trace of executed commands. -/
def addMetadata (config : MediaConfig) (files : List String) (imageFile : Option String)
    (prompts : Nat → String) : Option (List (List String)) :=
  addMetadataAux config imageFile prompts 0 files

/-- Mirrors the three startup assertions guarding main. -/
def startupChecksPass (c : MediaConfig) : Bool :=
  (c.dir != "") &&
    ((c.img != "") || (c.artist != "") || (c.genre != "") || (c.track != "") ||
      (c.album != "") || (c.title != "")) &&
    ((c.title != "") || c.askTitle)

/-- How a run can abort: a startup assertion, a discovery failure, or a
ValueError while deriving an output filename. -/
inductive RunError where
  | startupAssertFailed
  | discovery (e : DiscoveryError)
  | outputNameValueError
deriving DecidableEq

/-- Mirrors the main guard of the script: the startup assertions, then
discovery, then the per-file loop; the result is the trace of executed
commands or the first abort. -/
def runScript (glob : String → String → List String) (prompts : Nat → String)
    (config : MediaConfig) : Except RunError (List (List String)) :=
  if startupChecksPass config then
    match getFilePaths glob config.dir config.filename config.img with
    | Except.error e => Except.error (RunError.discovery e)
    | Except.ok (files, imageFile) =>
      match addMetadata config files imageFile prompts with
      | none => Except.error RunError.outputNameValueError
      | some tr => Except.ok tr
  else Except.error RunError.startupAssertFailed

/-- The metadata argument pair synthesized for one tag field, written
from the words of the specification: a non-empty value yields one
key-equals-value pair, an empty value yields nothing. -/
def tagArgs (key value : String) : List String :=
  if value = "" then [] else ["-metadata", key ++ "=" ++ value]

/-- The metadata section as the specification describes it: the pairs of
the five fields in the fixed order title, artist, genre, track, album. -/
def specMetadataSection (t a g tr al : String) : List String :=
  tagArgs "title" t ++ tagArgs "artist" a ++ tagArgs "genre" g ++
    tagArgs "track" tr ++ tagArgs "album" al

/-- The leading part of the synthesized command: the input file, and the
second input with its two stream maps when an image is present. -/
def inputSection (file : String) (imageFile : Option String) : List String :=
  ["ffmpeg", "-i", file] ++ (match imageFile with
    | some img => ["-i", img, "-map", "0:0", "-map", "1:0"]
    | none => [])

/-- The trailing part of the synthesized command: tag version and
stream-copy output. -/
def tailSection (outputFilename : String) : List String :=
  ["-id3v2_version", "3", "-c", "copy", outputFilename]

/-- The commands the specification requires for one file: the transcode,
then, only when cleanup is requested, the deletion of the original
followed by the rename of the copy to the original name, trimmed exactly
when normalize mode is on. -/
def specFileBlock (config : MediaConfig) (imageFile : Option String) (prompts : Nat → String)
    (p : Nat × String) : List (List String) :=
  getFfmpegCommand p.2 config imageFile (outputNameD config p.2) (prompts p.1) ::
    (if config.cleanupFiles then
      [["rm", p.2],
       ["mv", outputNameD config p.2, if config.replaceWhitespace then trimStr p.2 else p.2]]
     else [])

/-- The derivation the claim about normalize mode describes: insert the
copy marker before the bare name, then strip every whitespace character
and every apostrophe from the whole string. -/
def claimNormalize (p : String) : String :=
  String.mk ((dirName p ++ "/copy_" ++ baseName p).data.filter
    (fun c => !c.isWhitespace && notApostrophe c))

/-- The derivation of the amended claim: insert the copy marker before
the bare name, then replace each space with an underscore and remove
each apostrophe from the whole string. -/
def amendedNormalize (p : String) : String :=
  String.mk (((dirName p ++ "/copy_" ++ baseName p).data.map spaceToUnderscore).filter
    notApostrophe)

/-- A filesystem on which every glob expansion is empty. -/
def emptyGlob : String → String → List String := fun _ _ => []

/-- A small sample filesystem for witnesses. -/
def sampleGlob : String → String → List String :=
  fun dir pat => if dir = "d" && pat = "*.mp3" then ["d/a.mp3", "d/b.mp3"] else []

/-- Prompt behavior answering every interactive question with the empty
string. -/
def samplePrompts : Nat → String := fun _ => ""

/-- A configuration with normalize mode on. -/
def cfgNormalize : MediaConfig := { dir := "d", replaceWhitespace := true }

/-- A configuration with a title and cleanup on. -/
def cfgCleanup : MediaConfig := { dir := "d", title := "T", cleanupFiles := true }

/-- A configuration violating the first startup assertion. -/
def cfgBad : MediaConfig := { dir := "" }

/-- C4: when the filename specifier holds a wildcard, discovery returns
exactly the glob expansion of the specifier against the directory, and
the assertion aborts the run whenever that expansion is empty. -/
theorem c4_wildcard_discovery (glob : String → String → List String) (dir filename img : String)
    (h : hasWildcard filename = true) :
    (glob dir filename = [] →
      getFilePaths glob dir filename img = Except.error DiscoveryError.emptyFileList) ∧
    (∀ files imageFile, getFilePaths glob dir filename img = Except.ok (files, imageFile) →
      files = glob dir filename) := by
  constructor
  · intro hg
    simp [getFilePaths, h, hg]
  · intro files imageFile heq
    by_cases h1 : glob dir filename = [] <;> by_cases h2 : img = "" <;>
      cases hg : glob dir img <;> simp only [getFilePaths, h, h1, h2, hg] at heq <;> simp_all

/-- Witness for C4 on a wildcard specifier over an empty filesystem: the
expansion is empty and discovery aborts with the assertion failure. -/
theorem c4_wildcard_discovery_witness :
    hasWildcard "*.mp3" = true ∧
    getFilePaths emptyGlob "d" "*.mp3" "" = Except.error DiscoveryError.emptyFileList :=
  ⟨by decide, (c4_wildcard_discovery emptyGlob "d" "*.mp3" "" (by decide)).1 rfl⟩

/-- C5: when the filename specifier holds no wildcard, every successful
discovery returns exactly one path, the directory joined with the
specifier. -/
theorem c5_literal_discovery (glob : String → String → List String) (dir filename img : String)
    (h : hasWildcard filename = false) :
    ∀ files imageFile, getFilePaths glob dir filename img = Except.ok (files, imageFile) →
      files = [joinPath dir filename] := by
  intro files imageFile heq
  by_cases h2 : img = "" <;> cases hg : glob dir img <;>
    simp only [getFilePaths, h, h2, hg] at heq <;> simp_all

/-- Witness for C5 on a literal specifier: discovery yields the single
joined path. -/
theorem c5_literal_discovery_witness :
    hasWildcard "a.mp3" = false ∧ (["d/a.mp3"] : List String) = [joinPath "d" "a.mp3"] :=
  ⟨by decide, c5_literal_discovery emptyGlob "d" "a.mp3" "" (by decide) ["d/a.mp3"] none rfl⟩

/-- C9: for a specifier without a wildcard the non-emptiness assertion on
the file list can never fire, whatever the filesystem holds; with no
image specifier, discovery succeeds with the literal joined path even
when that file matches nothing on disk. -/
theorem c9_literal_never_empty_abort (glob : String → String → List String)
    (dir filename img : String) (h : hasWildcard filename = false) :
    getFilePaths glob dir filename img ≠ Except.error DiscoveryError.emptyFileList ∧
    (img = "" → getFilePaths glob dir filename img = Except.ok ([joinPath dir filename], none)) := by
  constructor
  · intro heq
    by_cases h2 : img = "" <;> cases hg : glob dir img <;>
      simp only [getFilePaths, h, h2, hg] at heq <;> simp_all
  · intro himg
    simp [getFilePaths, h, himg]

/-- Witness for C9: a literal filename over the empty filesystem, so the
named file exists nowhere, still passes discovery. -/
theorem c9_literal_never_empty_abort_witness :
    hasWildcard "ghost.mp3" = false ∧
    getFilePaths emptyGlob "d" "ghost.mp3" "" = Except.ok ([joinPath "d" "ghost.mp3"], none) :=
  ⟨by decide, (c9_literal_never_empty_abort emptyGlob "d" "ghost.mp3" "" (by decide)).2 rfl⟩

/-- C7: a configuration with an empty directory, or with all six of
image, artist, genre, track, album and title empty, or with an empty
title and the prompt flag unset, makes the run abort at the startup
assertions, for every filesystem and every prompt behavior, so before
any discovery or external command. -/
theorem c7_startup_validation (config : MediaConfig)
    (h : config.dir = "" ∨
      (config.img = "" ∧ config.artist = "" ∧ config.genre = "" ∧ config.track = "" ∧
        config.album = "" ∧ config.title = "") ∨
      (config.title = "" ∧ config.askTitle = false)) :
    ∀ glob prompts, runScript glob prompts config = Except.error RunError.startupAssertFailed := by
  intro glob prompts
  have hfalse : startupChecksPass config = false := by
    rcases h with h | ⟨h1, h2, h3, h4, h5, h6⟩ | ⟨h1, h2⟩
    · simp [startupChecksPass, h]
    · simp [startupChecksPass, h1, h2, h3, h4, h5, h6]
    · simp [startupChecksPass, h1, h2]
  simp [runScript, hfalse]

/-- Witness for C7: the empty-directory configuration aborts at startup. -/
theorem c7_startup_validation_witness :
    cfgBad.dir = "" ∧
    runScript emptyGlob samplePrompts cfgBad = Except.error RunError.startupAssertFailed :=
  ⟨rfl, c7_startup_validation cfgBad (Or.inl rfl) emptyGlob samplePrompts⟩

/-- The extend loop over a pair list, started from any base command,
appends exactly the tag argument blocks of the pairs in order. -/
theorem foldl_extend_eq : ∀ (pairs : List (String × String)) (base : List String),
    pairs.foldl (fun acc kv => if kv.2 = "" then acc else acc ++ ["-metadata", kv.1 ++ "=" ++ kv.2])
        base =
      base ++ ((pairs.map (fun kv => tagArgs kv.1 kv.2)).flatten)
  | [], base => by simp
  | kv :: ps, base => by
    rw [List.foldl_cons, foldl_extend_eq ps]
    by_cases hv : kv.2 = "" <;> simp [hv, tagArgs, List.append_assoc]

/-- The synthesized command decomposes into the input section, the
metadata section of the specification in the fixed field order, and the
tail section. -/
theorem getFfmpegCommand_decomp (file : String) (config : MediaConfig) (imageFile : Option String)
    (outputFilename promptedTitle : String) :
    getFfmpegCommand file config imageFile outputFilename promptedTitle =
      inputSection file imageFile ++
        specMetadataSection (resolveTitle config promptedTitle) config.artist config.genre
          config.track config.album ++
        tailSection outputFilename := by
  simp only [getFfmpegCommand, metadataMap, foldl_extend_eq]
  cases imageFile <;>
    simp [inputSection, tailSection, specMetadataSection, List.append_assoc]

/-- C1: for every configuration and target file, each of the five tag
fields whose resolved value is non-empty contributes exactly one
metadata argument pair, the pairs stand in the fixed order title,
artist, genre, track, album between the input section and the tail
section, and an empty field contributes nothing, as tagArgs yields the
empty list on an empty value. -/
theorem c1_metadata_argument_shape (file : String) (config : MediaConfig)
    (imageFile : Option String) (outputFilename promptedTitle : String) :
    getFfmpegCommand file config imageFile outputFilename promptedTitle =
      inputSection file imageFile ++
        (tagArgs "title" (resolveTitle config promptedTitle) ++ tagArgs "artist" config.artist ++
          tagArgs "genre" config.genre ++ tagArgs "track" config.track ++
          tagArgs "album" config.album) ++
        tailSection outputFilename :=
  getFfmpegCommand_decomp file config imageFile outputFilename promptedTitle

/-- Any element of a tag argument block is the metadata flag or the
key-equals-value string. -/
theorem mem_tagArgs {s key value : String} (h : s ∈ tagArgs key value) :
    s = "-metadata" ∨ s = key ++ "=" ++ value := by
  unfold tagArgs at h
  by_cases hv : value = ""
  · simp [hv] at h
  · simp [hv] at h
    tauto

/-- A key-equals-value string for a key of length at least five has
length at least six. -/
theorem tagArg_length_ge (key value : String) (hk : 5 ≤ key.length) :
    6 ≤ (key ++ "=" ++ value).length := by
  rw [String.length_append, String.length_append]
  have h1 : ("=" : String).length = 1 := rfl
  omega

/-- Short strings other than the metadata flag never occur in the
metadata section: every element is the flag or a key-equals-value
string of length at least six. -/
theorem not_mem_specMetadataSection (s : String) (h1 : s ≠ "-metadata") (h2 : s.length < 6)
    (t a g tr al : String) : s ∉ specMetadataSection t a g tr al := by
  intro hmem
  simp only [specMetadataSection, List.mem_append] at hmem
  have hlen : 6 ≤ s.length := by
    rcases hmem with (((hm | hm) | hm) | hm) | hm <;>
      rcases mem_tagArgs hm with he | he <;>
      first
        | exact absurd he h1
        | (rw [he]; exact tagArg_length_ge _ _ (by decide))
  omega

/-- The metadata section never holds a map argument. -/
theorem count_map_specMetadataSection (t a g tr al : String) :
    (specMetadataSection t a g tr al).count "-map" = 0 :=
  List.count_eq_zero.mpr (not_mem_specMetadataSection "-map" (by decide) (by decide) t a g tr al)

/-- The metadata section never holds an input flag. -/
theorem count_i_specMetadataSection (t a g tr al : String) :
    (specMetadataSection t a g tr al).count "-i" = 0 :=
  List.count_eq_zero.mpr (not_mem_specMetadataSection "-i" (by decide) (by decide) t a g tr al)

/-- C6: when a cover image is present the synthesized command opens with
the input file, a second input declaration for the image and exactly the
two stream maps, all placed before the whole metadata section, and the
command holds exactly two map arguments in total; when no image is
present the command holds no map argument and exactly one input flag.
The hypotheses keep the file, image and output names distinct from the
fixed flag strings, as any real path synthesized by the script is. -/
theorem c6_image_mapping (file imgPath outputFilename promptedTitle : String)
    (config : MediaConfig)
    (hf1 : file ≠ "-map") (hf2 : file ≠ "-metadata") (hf3 : file ≠ "-i")
    (hi1 : imgPath ≠ "-map") (hi2 : imgPath ≠ "-metadata")
    (ho1 : outputFilename ≠ "-map") (ho2 : outputFilename ≠ "-i") :
    (getFfmpegCommand file config (some imgPath) outputFilename promptedTitle =
        ["ffmpeg", "-i", file, "-i", imgPath, "-map", "0:0", "-map", "1:0"] ++
          (specMetadataSection (resolveTitle config promptedTitle) config.artist config.genre
              config.track config.album ++
            tailSection outputFilename) ∧
      (getFfmpegCommand file config (some imgPath) outputFilename promptedTitle).count "-map" = 2 ∧
      "-metadata" ∉ ["ffmpeg", "-i", file, "-i", imgPath, "-map", "0:0", "-map", "1:0"]) ∧
    ((getFfmpegCommand file config none outputFilename promptedTitle).count "-map" = 0 ∧
      (getFfmpegCommand file config none outputFilename promptedTitle).count "-i" = 1) := by
  have hdec1 := getFfmpegCommand_decomp file config (some imgPath) outputFilename promptedTitle
  have hdec2 := getFfmpegCommand_decomp file config none outputFilename promptedTitle
  refine ⟨⟨?_, ?_, ?_⟩, ?_, ?_⟩
  · rw [hdec1]
    simp [inputSection, List.append_assoc]
  · rw [hdec1]
    simp [inputSection, tailSection, List.count_append, List.count_cons,
      count_map_specMetadataSection, hf1, ho1, hi1]
  · simp [List.mem_cons]
    exact ⟨fun he => hf2 he.symm, fun he => hi2 he.symm⟩
  · rw [hdec2]
    simp [inputSection, tailSection, List.count_append, List.count_cons,
      count_map_specMetadataSection, hf1, ho1]
  · rw [hdec2]
    simp [inputSection, tailSection, List.count_append, List.count_cons,
      count_i_specMetadataSection, hf3, ho2]

/-- Witness for C6 at concrete names. -/
theorem c6_image_mapping_witness :
    (getFfmpegCommand "d/a.mp3" cfgCleanup (some "d/c.jpg") "copy_a.mp3" "" =
        ["ffmpeg", "-i", "d/a.mp3", "-i", "d/c.jpg", "-map", "0:0", "-map", "1:0"] ++
          (specMetadataSection (resolveTitle cfgCleanup "") cfgCleanup.artist cfgCleanup.genre
              cfgCleanup.track cfgCleanup.album ++
            tailSection "copy_a.mp3") ∧
      (getFfmpegCommand "d/a.mp3" cfgCleanup (some "d/c.jpg") "copy_a.mp3" "").count "-map" = 2 ∧
      "-metadata" ∉ ["ffmpeg", "-i", "d/a.mp3", "-i", "d/c.jpg", "-map", "0:0", "-map", "1:0"]) ∧
    ((getFfmpegCommand "d/a.mp3" cfgCleanup none "copy_a.mp3" "").count "-map" = 0 ∧
      (getFfmpegCommand "d/a.mp3" cfgCleanup none "copy_a.mp3" "").count "-i" = 1) :=
  c6_image_mapping "d/a.mp3" "d/c.jpg" "copy_a.mp3" "" cfgCleanup (by decide) (by decide)
    (by decide) (by decide) (by decide) (by decide) (by decide)

/-- C10: when the prompt flag is set and the interactive answer is the
empty string, the synthesized command carries no title metadata argument
at all, although the configured title is non-empty and would by itself
have produced a pair: the metadata section consists of the other four
fields only. -/
theorem c10_prompted_empty_title (file outputFilename : String) (config : MediaConfig)
    (imageFile : Option String) (h1 : config.askTitle = true) (h2 : config.title ≠ "") :
    getFfmpegCommand file config imageFile outputFilename "" =
      inputSection file imageFile ++
        (tagArgs "artist" config.artist ++ tagArgs "genre" config.genre ++
          tagArgs "track" config.track ++ tagArgs "album" config.album) ++
        tailSection outputFilename ∧
    tagArgs "title" config.title ≠ [] := by
  constructor
  · rw [getFfmpegCommand_decomp]
    have ht : resolveTitle config "" = "" := by simp [resolveTitle, h1]
    simp [specMetadataSection, ht, tagArgs, List.append_assoc]
  · simp [tagArgs, h2]

/-- Witness for C10: a configured title X is discarded by an empty
prompted answer. -/
theorem c10_prompted_empty_title_witness :
    (getFfmpegCommand "d/a.mp3" { dir := "d", title := "X", askTitle := true } none "copy_a.mp3"
        "" =
      inputSection "d/a.mp3" none ++
        (tagArgs "artist" "" ++ tagArgs "genre" "" ++ tagArgs "track" "" ++ tagArgs "album" "") ++
        tailSection "copy_a.mp3" ∧
    tagArgs "title" "X" ≠ []) :=
  c10_prompted_empty_title "d/a.mp3" "copy_a.mp3" { dir := "d", title := "X", askTitle := true }
    none rfl (by decide)

/-- Counterexample to C2: the claim says normalize mode strips every
whitespace character, but trimStr rewrites each space to an underscore
and leaves other whitespace such as a tab untouched: on a name holding a
tab and a space the code yields the underscored form, not the stripped
form the claim describes. -/
theorem c2_counterexample_space_replaced :
    getOutputFilename cfgNormalize "d/a\tb c.mp3" = some "d/copy_a\tb_c.mp3" ∧
    claimNormalize "d/a\tb c.mp3" = "d/copy_abc.mp3" ∧
    getOutputFilename cfgNormalize "d/a\tb c.mp3" ≠ some (claimNormalize "d/a\tb c.mp3") := by
  refine ⟨rfl, rfl, ?_⟩
  decide

/-- C2 amended: in normalize mode, for every input path holding a slash,
the derived output filename inserts the copy marker before the bare
filename inside the source directory path and then replaces each space
character with an underscore and removes each apostrophe character from
the entire resulting path string. -/
theorem c2_amended_normalize (config : MediaConfig) (file : String)
    (h1 : config.replaceWhitespace = true) (h2 : containsChar file '/' = true) :
    getOutputFilename config file = some (amendedNormalize file) := by
  simp [getOutputFilename, h1, h2, amendedNormalize, trimStr]

/-- Witness for the amended C2 on a name with a space. -/
theorem c2_amended_normalize_witness :
    cfgNormalize.replaceWhitespace = true ∧ containsChar "d/a b.mp3" '/' = true ∧
    getOutputFilename cfgNormalize "d/a b.mp3" = some (amendedNormalize "d/a b.mp3") :=
  ⟨rfl, by decide, c2_amended_normalize cfgNormalize "d/a b.mp3" rfl (by decide)⟩

/-- Counterexample to C3: the input holds no space and no apostrophe,
yet applying the normalize-mode derivation twice prepends the copy
marker a second time, so the derivation is not idempotent on such
inputs. -/
theorem c3_counterexample_not_idempotent :
    "d/a.mp3".data.contains ' ' = false ∧
    "d/a.mp3".data.contains (Char.ofNat 39) = false ∧
    getOutputFilename cfgNormalize "d/a.mp3" = some "d/copy_a.mp3" ∧
    Option.bind (getOutputFilename cfgNormalize "d/a.mp3") (getOutputFilename cfgNormalize) =
      some "d/copy_copy_a.mp3" ∧
    Option.bind (getOutputFilename cfgNormalize "d/a.mp3") (getOutputFilename cfgNormalize) ≠
      getOutputFilename cfgNormalize "d/a.mp3" := by
  refine ⟨rfl, rfl, rfl, rfl, ?_⟩
  decide

/-- Rewriting spaces to underscores is pointwise idempotent. -/
theorem spaceToUnderscore_idem (c : Char) :
    spaceToUnderscore (spaceToUnderscore c) = spaceToUnderscore c := by
  unfold spaceToUnderscore
  by_cases hc : c = ' ' <;> simp [hc]

/-- C3 amended: the trimming step of normalize-mode derivation is
idempotent on every input, so inputs already free of spaces and
apostrophes are fixed points of the trim; the full derivation is not
idempotent, each application inserting a further copy marker, as the
counterexample shows. -/
theorem c3_trim_idempotent (s : String) : trimStr (trimStr s) = trimStr s := by
  unfold trimStr
  congr 1
  have hmap : ((s.data.map spaceToUnderscore).filter notApostrophe).map spaceToUnderscore =
      (s.data.map spaceToUnderscore).filter notApostrophe := by
    have h1 : ∀ c ∈ (s.data.map spaceToUnderscore).filter notApostrophe,
        spaceToUnderscore c = id c := by
      intro c hc
      have hc2 := List.mem_map.mp (List.mem_of_mem_filter hc)
      rcases hc2 with ⟨b, _, hb⟩
      rw [← hb, spaceToUnderscore_idem]
      rfl
    rw [List.map_congr_left h1, List.map_id]
  rw [hmap, List.filter_filter]
  simp

/-- The output filename derivation succeeds whenever normalize mode is
off or the path holds a slash, and then yields its total projection. -/
theorem getOutputFilename_eq_some (config : MediaConfig) (file : String)
    (h : config.replaceWhitespace = true → containsChar file '/' = true) :
    getOutputFilename config file = some (outputNameD config file) := by
  cases hr : config.replaceWhitespace
  · simp [getOutputFilename, outputNameD, hr]
  · have hc := h hr
    simp [getOutputFilename, outputNameD, hr, hc]

/-- The loop of addMetadata, started at any index, produces exactly the
concatenation of the per-file blocks the specification describes, as
long as every output filename derivation succeeds. -/
theorem addMetadataAux_eq_spec (config : MediaConfig) (imageFile : Option String)
    (prompts : Nat → String) :
    ∀ (files : List String) (i : Nat),
      (config.replaceWhitespace = true → ∀ f ∈ files, containsChar f '/' = true) →
      addMetadataAux config imageFile prompts i files =
        some (((files.enumFrom i).map (specFileBlock config imageFile prompts)).flatten)
  | [], i, _ => by simp [addMetadataAux]
  | f :: rest, i, h => by
    have hf : getOutputFilename config f = some (outputNameD config f) :=
      getOutputFilename_eq_some config f (fun hr => h hr f (List.mem_cons_self f rest))
    have hrest := addMetadataAux_eq_spec config imageFile prompts rest (i + 1)
      (fun hr g hg => h hr g (List.mem_cons_of_mem f hg))
    simp only [addMetadataAux, hf, hrest, List.enumFrom_cons, List.map_cons, List.flatten_cons]
    simp [specFileBlock, cleanupFilesCmds, getRmCommand, getMvCommand]

/-- C8: cleanup commands appear in the trace only when the cleanup flag
is set, and then once per file directly after that same transcode
command rather than batched at the end: the trace is the concatenation,
file by file, of the transcode command followed, when the flag is set,
by the removal of the original and the rename of the copy to the
original name, that name trimmed exactly when normalize mode is on. -/
theorem c8_cleanup_schedule (config : MediaConfig) (files : List String)
    (imageFile : Option String) (prompts : Nat → String)
    (h : config.replaceWhitespace = true → ∀ f ∈ files, containsChar f '/' = true) :
    addMetadata config files imageFile prompts =
      some (((files.enumFrom 0).map (specFileBlock config imageFile prompts)).flatten) :=
  addMetadataAux_eq_spec config imageFile prompts files 0 h

/-- Witness for C8 on one file with cleanup on: the trace is transcode,
then remove, then rename, with the untrimmed original name since
normalize mode is off. -/
theorem c8_cleanup_schedule_witness :
    addMetadata cfgCleanup ["d/a.mp3"] none samplePrompts =
      some (((["d/a.mp3"].enumFrom 0).map (specFileBlock cfgCleanup none samplePrompts)).flatten) :=
  c8_cleanup_schedule cfgCleanup ["d/a.mp3"] none samplePrompts (by decide)

end AddMetadata
